import Mathlib

set_option maxHeartbeats 1000000

/-! Verification development for `ParticleSwarmSynth/Effects.py`.

The Python module is embedded shallowly over exact rationals: a numpy float
array becomes `List ℚ`, and every Python/numpy exception path becomes an
explicit `Except` error.  Transcendental float routines (`np.sin`, `np.cos`,
`np.tanh`, `10**x`, `scipy.signal.butter` coefficient design) have no exact
rational value, so they are abstracted as fields of a `FloatOps` parameter;
angles are carried in turns (`sin2pi x` models `sin(2*pi*x)`), which lets the
embedding avoid the irrational factor `2*pi` that the source folds into its
arguments.  Everything else (slicing, linspace, rounding, the filter
recurrences, the reverb delay-line loop) is translated operation by
operation from the source.
-/

/-- Python exception kinds raised by the embedded code paths. -/
inductive PyErr where
  | valueError
  | typeError
  | indexError
  deriving DecidableEq

/-- Result of a buffer-transforming stage.  The error case carries the
exception kind together with the caller-visible buffer at the moment the
exception is raised: the Python stages receive a numpy array by reference,
so a stage that has written into that array before raising leaves the
caller with the partially processed data. -/
abbrev PyResult := Except (PyErr × List ℚ) (List ℚ)

/-- `int(np.round(x))`: numpy rounds half to even, and `int` of the already
integral result is exact. -/
def rndHE (q : ℚ) : ℤ :=
  let f := Int.floor q
  let r := q - (f : ℚ)
  if r < 1/2 then f
  else if 1/2 < r then f + 1
  else if f % 2 = 0 then f else f + 1

/-- Python `int(x)` for a float `x`: truncation toward zero. -/
def pyInt (q : ℚ) : ℤ :=
  if q < 0 then -Int.floor (-q) else Int.floor q

/-- IEEE division guarded for a zero denominator: `x / 0` produces a
non-finite float (NaN for `0 / 0`), modelled as `none`. -/
def pyDiv (x y : ℚ) : Option ℚ :=
  if y = 0 then none else some (x / y)

/-- `np.max(np.abs(xs))` for a nonempty `xs`: all compared values are
nonnegative, so seeding the fold with `0` returns the same maximum. -/
def listMaxAbs (xs : List ℚ) : ℚ :=
  xs.foldl (fun m x => max m |x|) 0

/-- Sum of squares, the numerator of `np.mean(xs**2)`. -/
def sumSq (xs : List ℚ) : ℚ :=
  (xs.map (fun x => x ^ 2)).sum

/-- Value list of `np.linspace(start, stop, num, endpoint)` for a
nonnegative sample count. -/
def linspaceList (start stop : ℚ) (num : ℕ) (endpoint : Bool) : List ℚ :=
  if endpoint then
    if num = 0 then []
    else if num = 1 then [start]
    else (List.range num).map
      (fun (i : ℕ) => start + (i : ℚ) * ((stop - start) / ((num : ℚ) - 1)))
  else
    (List.range num).map
      (fun (i : ℕ) => start + (i : ℚ) * ((stop - start) / (num : ℚ)))

/-- `np.linspace` with a possibly negative requested count: numpy raises
`ValueError` when the number of samples is negative. -/
def npLinspace (start stop : ℚ) (num : ℤ) (endpoint : Bool) : Except PyErr (List ℚ) :=
  if num < 0 then .error .valueError
  else .ok (linspaceList start stop num.toNat endpoint)

/-- Resolve one bound of a Python slice over a sequence of length `n`:
negative indices count from the end, and the result is clamped to `[0, n]`. -/
def pyResolve (n : ℕ) (i : ℤ) : ℕ :=
  if i < 0 then (if i + (n : ℤ) < 0 then 0 else min (i + (n : ℤ)).toNat n)
  else min i.toNat n

/-- Length of the slice `xs[lo:hi]` over a sequence of length `n`. -/
def sliceLen (n : ℕ) (lo hi : ℤ) : ℕ :=
  pyResolve n hi - pyResolve n lo

/-- Replace the slice `xs[lo:hi]` by the segment `seg` (callers pass a
segment whose length matches the slice). -/
def spliceList (xs : List ℚ) (lo hi : ℤ) (seg : List ℚ) : List ℚ :=
  xs.take (pyResolve xs.length lo) ++ seg ++
    xs.drop (pyResolve xs.length lo + sliceLen xs.length lo hi)

/-- Numpy slice assignment `xs[lo:hi] = vals` with an array right-hand side:
the value array must match the slice length exactly or have length one
(broadcast); any other mismatch raises `ValueError`. -/
def npSetSlice (xs : List ℚ) (lo hi : ℤ) (vals : List ℚ) : Except PyErr (List ℚ) :=
  if vals.length = sliceLen xs.length lo hi then
    .ok (spliceList xs lo hi vals)
  else if vals.length = 1 then
    .ok (spliceList xs lo hi (List.replicate (sliceLen xs.length lo hi) (vals.getD 0 0)))
  else .error .valueError

/-- Numpy slice assignment `xs[lo:hi] = v` with a scalar right-hand side:
a scalar broadcasts to any slice length, so this never fails. -/
def npFillSlice (xs : List ℚ) (lo hi : ℤ) (v : ℚ) : List ℚ :=
  spliceList xs lo hi (List.replicate (sliceLen xs.length lo hi) v)

/-- Numpy single-element index resolution: a negative index counts from the
end; an index outside `[-n, n)` is invalid. -/
def npIdx (n : ℕ) (i : ℤ) : Option ℕ :=
  let j := if i < 0 then i + (n : ℤ) else i
  if 0 ≤ j ∧ j < (n : ℤ) then some j.toNat else none

/-- `xs[i]` on a numpy array: raises `IndexError` when out of range. -/
def npGet (xs : List ℚ) (i : ℤ) : Except PyErr ℚ :=
  match npIdx xs.length i with
  | some k => .ok (xs.getD k 0)
  | none => .error .indexError

/-- `xs[i] = v` on a numpy array: raises `IndexError` when out of range. -/
def npSet (xs : List ℚ) (i : ℤ) (v : ℚ) : Except PyErr (List ℚ) :=
  match npIdx xs.length i with
  | some k => .ok (xs.set k v)
  | none => .error .indexError

/-- Elementwise product of two arrays.  Every use site in the embedded code
multiplies arrays of equal length (numpy would raise on a mismatch, but no
mismatch is reachable). -/
def zipMul (xs ys : List ℚ) : List ℚ :=
  List.zipWith (fun x y => x * y) xs ys

/-- Abstract interface to the transcendental float routines used by the
source.  `sin2pi x` models `sin(2*pi*x)` and `cos2pi x` models
`cos(2*pi*x)` (angles in turns), `exp10 x` models `10**x`, `tanh` models
`np.tanh`, and `butter lowband wn` models the pair of coefficient triples
`(b, a)` returned by `scipy.signal.butter(2, wn, btype)`.  The theorems
below quantify over this interface or pin only the finitely many values
they actually consume. -/
structure FloatOps where
  sin2pi : ℚ → ℚ
  cos2pi : ℚ → ℚ
  exp10 : ℚ → ℚ
  tanh : ℚ → ℚ
  butter : Bool → ℚ → (ℚ × ℚ × ℚ) × (ℚ × ℚ × ℚ)

/-- Fractional part of a rational. -/
def fracPart (q : ℚ) : ℚ := q - (Int.floor q : ℚ)

/-- Concrete instance of `FloatOps` used for closed evaluations.  Its
`sin2pi` and `cos2pi` return the exact values of `sin(2*pi*x)` and
`cos(2*pi*x)` at quarter turns, which is also what IEEE doubles deliver at
the concrete inputs used below; away from quarter turns the value is an
unspecified placeholder that no closed theorem consults.  `exp10` is only
ever consulted at `0`, where `10**0.0` is exactly `1.0`. -/
def opsQ : FloatOps where
  sin2pi := fun x =>
    let r := fracPart x
    if r = 0 then 0 else if r = 1/4 then 1 else if r = 1/2 then 0
    else if r = 3/4 then -1 else 0
  cos2pi := fun x =>
    let r := fracPart x
    if r = 0 then 1 else if r = 1/4 then 0 else if r = 1/2 then -1
    else if r = 3/4 then 0 else 1
  exp10 := fun _ => 1
  tanh := fun _ => 0
  butter := fun _ _ => ((1, 0, 0), (1, 0, 0))

/-- Placeholder stream for `np.random.uniform` draws: the white-noise
generator consumes one value per sample from an arbitrary sequence. -/
def randZero : ℕ → ℚ := fun _ => 0

/-- The recognized oscillator type strings (`Effects.py`, line 11). -/
def oscillator_types : List String :=
  ["sine", "square", "sawtooth", "triangle", "pwm", "noise", "sine2",
   "sawtooth2", "triangle2", "harmonic", "sawtooth3", "triangle3",
   "square3", "fm_sine", "fm_square", "fm_sawtooth", "fm_triangle"]

/-- `scipy.signal.square(2*pi*x, duty)` expressed in turns: the wave is `1`
while the fractional position within the period is below the duty cycle and
`-1` afterwards. -/
def squareT (x duty : ℚ) : ℚ :=
  if fracPart x < duty then 1 else -1

/-- `scipy.signal.sawtooth(2*pi*x, width)` expressed in turns: a ramp from
`-1` to `1` over the first `width` of the period, then back down. -/
def sawT (x width : ℚ) : ℚ :=
  let r := fracPart x
  if r < width then 2 * r / width - 1
  else (width + 1 - 2 * r) / (1 - width)

/-- `pwm_wave` (`Effects.py`, lines 32-34): its own time axis of
`int(length*sr)` samples, then a duty-cycled square wave. -/
def pwm_wave (freq len sr duty : ℚ) : Except PyErr (List ℚ) := do
  let t ← npLinspace 0 len (pyInt (len * sr)) false
  pure (t.map (fun x => squareT (freq * x) duty))

/-- `white_noise` (`Effects.py`, lines 36-37): `np.random.uniform` with a
negative requested size raises `ValueError`; otherwise one draw per sample
is taken from the stream `rand`. -/
def white_noise (rand : ℕ → ℚ) (len sr : ℚ) : Except PyErr (List ℚ) :=
  if pyInt (len * sr) < 0 then .error .valueError
  else .ok ((List.range (pyInt (len * sr)).toNat).map rand)

/-- `normalize_audio` (`Effects.py`, lines 39-40): divide by the peak
absolute value.  `np.max` of an empty array raises `ValueError`; a zero
peak makes every quotient the IEEE non-finite `0/0` (a numpy warning, not
an exception), modelled by `pyDiv` returning `none`. -/
def normalize_audio (buf : List ℚ) : Except PyErr (List (Option ℚ)) :=
  if buf.isEmpty then .error .valueError
  else .ok (buf.map (fun x => pyDiv x (listMaxAbs buf)))

/-- `oscillator` (`Effects.py`, lines 42-88).  The time axis is computed
first; each recognized type string maps over it; an unrecognized type
raises `ValueError`.  The dead local variables `carrier` of the FM branches
are omitted (they are computed and discarded by the source). -/
def oscillator (ops : FloatOps) (rand : ℕ → ℚ) (freq len sr : ℚ)
    (osc_type : String) (fm_index fm_freq : ℚ) : Except PyErr (List ℚ) := do
  let t ← npLinspace 0 len (pyInt (len * sr)) false
  if osc_type = "sine" then
    pure (t.map (fun x => ops.sin2pi (freq * x)))
  else if osc_type = "square" then
    pure (t.map (fun x => squareT (freq * x) (1/2)))
  else if osc_type = "sawtooth" then
    pure (t.map (fun x => sawT (freq * x) 1))
  else if osc_type = "triangle" then
    pure (t.map (fun x => sawT (freq * x) (1/2)))
  else if osc_type = "pwm" then
    pwm_wave freq len sr (1/2)
  else if osc_type = "noise" then
    white_noise rand len sr
  else if osc_type = "sine2" then
    pure (t.map (fun x => ops.sin2pi (freq * x) + ops.sin2pi (2 * freq * x) / 2))
  else if osc_type = "sawtooth2" then
    pure (t.map (fun x => sawT (freq * x) 1 + sawT (2 * freq * x) 1 / 2))
  else if osc_type = "triangle2" then
    pure (t.map (fun x => sawT (freq * x) (1/2) + sawT (2 * freq * x) (1/2) / 2))
  else if osc_type = "harmonic" then
    pure (t.map (fun x => ops.sin2pi (freq * x) + ops.sin2pi (2 * freq * x) / 2
      + ops.sin2pi (3 * freq * x) / 3))
  else if osc_type = "sawtooth3" then
    pure (t.map (fun x => sawT (freq * x) 1 + sawT (2 * freq * x) 1 / 2
      + sawT (3 * freq * x) 1 / 3))
  else if osc_type = "triangle3" then
    pure (t.map (fun x => sawT (freq * x) (1/2) + sawT (2 * freq * x) (1/2) / 2
      + sawT (3 * freq * x) (1/2) / 3))
  else if osc_type = "square3" then
    pure (t.map (fun x => squareT (freq * x) (1/2) + squareT (2 * freq * x) (1/2) / 2
      + squareT (3 * freq * x) (1/2) / 3))
  else if osc_type = "fm_sine" then
    pure (t.map (fun x => ops.sin2pi ((freq + fm_index * ops.sin2pi (fm_freq * x)) * x)))
  else if osc_type = "fm_square" then
    pure (t.map (fun x => squareT ((freq + fm_index * squareT (fm_freq * x) (1/2)) * x) (1/2)))
  else if osc_type = "fm_sawtooth" then
    pure (t.map (fun x => sawT ((freq + fm_index * sawT (fm_freq * x) 1) * x) 1))
  else if osc_type = "fm_triangle" then
    pure (t.map (fun x => sawT ((freq + fm_index * sawT (fm_freq * x) (1/2)) * x) (1/2)))
  else
    .error .valueError

/-- Body of `adsr_envelope` for `on=True` (`Effects.py`, lines 91-124).
The source also computes `sustain_samples` (line 98) but never uses it, so
it is omitted.  Each numpy statement is translated in source order; the
release assignment writes through the slice `envelope[-release_samples:]`,
whose start resolves to `0` (the whole array) when `release_samples` is
`0`. -/
def adsrCore (buf : List ℚ) (len sr attack decay sustain release : ℚ) :
    Except PyErr (List ℚ) := do
  let total := buf.length
  let maxAttackSamples := rndHE (len * sr / 4)
  let maxDecaySamples := rndHE (len * sr / 4)
  let attackSamples := min (rndHE (attack * sr)) maxAttackSamples
  let decaySamples := min (rndHE (decay * sr)) maxDecaySamples
  let releaseSamples := rndHE (release * sr)
  let envelope := List.replicate total (0 : ℚ)
  let attackValues ← npLinspace 0 1 attackSamples false
  let envelope ← npSetSlice envelope 0 attackSamples attackValues
  let decayValues ← npLinspace 1 sustain decaySamples false
  let envelope ← npSetSlice envelope attackSamples (attackSamples + decaySamples) decayValues
  let envelope := npFillSlice envelope (attackSamples + decaySamples)
    ((total : ℤ) - releaseSamples) sustain
  let releaseValues ← npLinspace sustain 0 releaseSamples true
  let envelope ← npSetSlice envelope (-releaseSamples) (total : ℤ) releaseValues
  pure (zipMul buf envelope)

/-- `adsr_envelope` (`Effects.py`, lines 90-126).  The body never writes
into the caller-held array (the product on line 122 allocates a fresh
array), so every raised exception leaves the caller with the unmodified
input, recorded by `mapError`. -/
def adsr_envelope (buf : List ℚ) (len sr attack decay sustain release : ℚ)
    (onFlag : Bool) : PyResult :=
  if onFlag then (adsrCore buf len sr attack decay sustain release).mapError (fun e => (e, buf))
  else .ok buf

/-- `scipy.signal.butter(2, wn, btype)`: the design raises `ValueError`
unless the normalized critical frequency satisfies `0 < wn < 1`; the
coefficient values themselves are transcendental and taken from the
abstract interface. -/
def butterDesign (ops : FloatOps) (lowband : Bool) (wn : ℚ) :
    Except PyErr ((ℚ × ℚ × ℚ) × (ℚ × ℚ × ℚ)) :=
  if 0 < wn ∧ wn < 1 then .ok (ops.butter lowband wn) else .error .valueError

/-- One biquad recurrence step of `scipy.signal.lfilter` with three
feedforward and three feedback coefficients, zero initial state, carrying
the two previous inputs and outputs.  `lfilter` normalizes by `a0`; the
division is performed on each output term, which agrees in exact
arithmetic.  When `a0 = 0` the code produces non-finite samples (no
exception) and this model produces the junk value `0`; no theorem below
equates the two, they are only both distinct from the input. -/
def biquadRun (b0 b1 b2 a0 a1 a2 : ℚ) : List ℚ → ℚ → ℚ → ℚ → ℚ → List ℚ
  | [], _, _, _, _ => []
  | x :: xs, x1, x2, y1, y2 =>
    let y := (b0 * x + b1 * x1 + b2 * x2 - a1 * y1 - a2 * y2) / a0
    y :: biquadRun b0 b1 b2 a0 a1 a2 xs x x1 y y1

/-- `scipy.signal.lfilter(b, a, xs)` for second-order coefficient triples,
run over the whole buffer with zero initial conditions. -/
def lfilter3 (b a : ℚ × ℚ × ℚ) (xs : List ℚ) : List ℚ :=
  biquadRun b.1 b.2.1 b.2.2 a.1 a.2.1 a.2.2 xs 0 0 0 0

/-- Body of `filter_envelope` for `on=True` (`Effects.py`, lines 129-143).
The ramp has one point per input sample; `np.max` of the empty filtered
ramp raises `ValueError`; a zero maximum makes the normalization divide by
zero (non-finite samples in the code, the junk value `0` here — no claim
reads these values). -/
def filterEnvCore (ops : FloatOps) (buf : List ℚ)
    (freq_cutoff freq_start freq_end sr : ℚ) : Except PyErr (List ℚ) := do
  let envelope := linspaceList freq_start freq_end buf.length true
  let ba ← butterDesign ops true (freq_cutoff / (sr / 2))
  let filtered := lfilter3 ba.1 ba.2 envelope
  if filtered.isEmpty then .error .valueError
  else
    let m := listMaxAbs filtered
    pure (zipMul buf (filtered.map (fun x => x / m)))

/-- `filter_envelope` (`Effects.py`, lines 128-145).  The unused `length`
parameter of the source is kept.  The body never writes into the
caller-held array, so errors carry the unmodified input. -/
def filter_envelope (buf : List ℚ) (len sr freq_cutoff freq_start freq_end : ℚ)
    (ops : FloatOps) (onFlag : Bool) : PyResult :=
  if onFlag then (filterEnvCore ops buf freq_cutoff freq_start freq_end sr).mapError (fun e => (e, buf))
  else .ok buf

/-- `lowpass_filter` (`Effects.py`, lines 148-156): second-order Butterworth
design at `cutoff / (sr/2)`, one `lfilter` pass, then a flat `resonance`
gain.  No write into the caller-held array. -/
def lowpass_filter (buf : List ℚ) (cutoff resonance sr : ℚ) (ops : FloatOps)
    (onFlag : Bool) : PyResult :=
  if onFlag then
    (do
      let ba ← butterDesign ops true (cutoff / (sr / 2))
      pure ((lfilter3 ba.1 ba.2 buf).map (fun x => x * resonance))).mapError (fun e => (e, buf))
  else .ok buf

/-- `highpass_filter` (`Effects.py`, lines 158-166): identical to the
low-pass stage apart from the band-type flag handed to the design. -/
def highpass_filter (buf : List ℚ) (cutoff resonance sr : ℚ) (ops : FloatOps)
    (onFlag : Bool) : PyResult :=
  if onFlag then
    (do
      let ba ← butterDesign ops false (cutoff / (sr / 2))
      pure ((lfilter3 ba.1 ba.2 buf).map (fun x => x * resonance))).mapError (fun e => (e, buf))
  else .ok buf

/-- The test `np.sqrt(np.mean(buf**2)) > threshold` from `compressor`
(line 171-172), made rational by squaring: for a nonempty buffer,
`rms > threshold` holds exactly when `threshold < 0` (the root is
nonnegative) or `threshold^2 * n < sum of squares`.  For an empty buffer
`np.mean` yields NaN and the comparison is false. -/
def rmsExceeds (buf : List ℚ) (threshold : ℚ) : Bool :=
  if buf.isEmpty then false
  else if threshold < 0 then true
  else if threshold ^ 2 * (buf.length : ℚ) < sumSq buf then true
  else false

/-- `compressor` (`Effects.py`, lines 168-178).  When the RMS test passes,
line 173 calls `adsr_envelope(len(audio), 44100, attack, 0, 1, release)` —
six positional arguments for a function of eight required parameters — so
Python raises `TypeError` during argument binding, before anything is
assigned; the caller-held buffer is untouched.  The `ratio` parameter `r`
and the attack and release times are consumed only by the unreachable
code after that call. -/
def compressor (buf : List ℚ) (threshold r attack release : ℚ) (onFlag : Bool) : PyResult :=
  if onFlag then
    if rmsExceeds buf threshold then .error (.typeError, buf)
    else .ok buf
  else .ok buf

/-- One iteration of the reverb delay-line loop (`Effects.py`,
lines 190-198), in source order: read `buffer[i]`, scale by `decay`;
`buffer[i + delay_samples] += audio[i]`; `buffer[i] += delayed` (re-read,
since the previous statement may alias the same cell when the delay is
zero); `audio[i] = audio[i] + delayed`.  Any out-of-range access raises
`IndexError`, carrying the partially rewritten caller-visible buffer.  The
loop index always satisfies `i < audio.length`, so `audio[i]` is read with
`getD`. -/
def reverbGo (decay : ℚ) (ds : ℤ) : ℕ → ℕ → List ℚ → List ℚ →
    Except (PyErr × List ℚ) (List ℚ × List ℚ)
  | 0, _, buffer, buf => .ok (buffer, buf)
  | fuel + 1, i, buffer, buf =>
    match npGet buffer (i : ℤ) with
    | .error e => .error (e, buf)
    | .ok bi =>
      let delayed := bi * decay
      let x := buf.getD i 0
      match npGet buffer ((i : ℤ) + ds) with
      | .error e => .error (e, buf)
      | .ok bj =>
        match npSet buffer ((i : ℤ) + ds) (bj + x) with
        | .error e => .error (e, buf)
        | .ok buffer1 =>
          match npGet buffer1 (i : ℤ) with
          | .error e => .error (e, buf)
          | .ok bi1 =>
            match npSet buffer1 (i : ℤ) (bi1 + delayed) with
            | .error e => .error (e, buf)
            | .ok buffer2 =>
              reverbGo decay ds fuel (i + 1) buffer2 (buf.set i (x + delayed))

/-- `reverb` loop state after the `on=True` body (`Effects.py`,
lines 184-199): the delay line of `delay_samples + len(audio)` zeros
(`np.zeros` of a negative size raises `ValueError` before the loop), then
the loop over every sample index.  The success value is the pair of the
engine-owned delay line and the caller-visible buffer. -/
def reverbFinal (buf : List ℚ) (sr delay decay : ℚ) (onFlag : Bool) :
    Except (PyErr × List ℚ) (List ℚ × List ℚ) :=
  if onFlag then
    let ds := pyInt (delay * sr)
    let blen := ds + (buf.length : ℤ)
    if blen < 0 then .error (.valueError, buf)
    else reverbGo decay ds buf.length 0 (List.replicate blen.toNat 0) buf
  else .ok ([], buf)

/-- `reverb` (`Effects.py`, lines 180-201): the function returns the very
array it mutated in place. -/
def reverb (buf : List ℚ) (sr delay decay : ℚ) (onFlag : Bool) : PyResult :=
  (reverbFinal buf sr delay decay onFlag).map (fun p => p.2)

/-- Contents of the caller-held array after a call to `reverb`, whether the
call returned or raised: the loop wrote into that array in place. -/
def reverbCallerAfter (buf : List ℚ) (sr delay decay : ℚ) (onFlag : Bool) : List ℚ :=
  match reverbFinal buf sr delay decay onFlag with
  | .ok p => p.2
  | .error e => e.2

/-- `distortion` (`Effects.py`, lines 203-212): soft clip
`tanh(x / threshold) * threshold` pointwise; a zero threshold gives
non-finite quotients in the code (warning, not an exception), never an
error. -/
def distortion (buf : List ℚ) (threshold : ℚ) (ops : FloatOps) (onFlag : Bool) : List ℚ :=
  if onFlag then buf.map (fun x => ops.tanh (x / threshold) * threshold)
  else buf

/-- Peaking-biquad coefficients of one equalizer band (`Effects.py`,
lines 222-242).  The source computes `w0 = 2*pi*center/sr` and feeds it to
`np.sin` and `np.cos`; in turns this is `center/sr`.  `A = 10**(gain/40)`;
the boost and cut branches mirror the coefficient forms. -/
def biquadCoeffs (ops : FloatOps) (sr center_freq gain q : ℚ) :
    (ℚ × ℚ × ℚ) × (ℚ × ℚ × ℚ) :=
  let s := ops.sin2pi (center_freq / sr)
  let c := ops.cos2pi (center_freq / sr)
  let alpha := s / (2 * q)
  let A := ops.exp10 (gain / 40)
  if 0 ≤ gain then
    ((1 + alpha * A, -2 * c, 1 - alpha * A), (1 + alpha / A, -2 * c, 1 - alpha / A))
  else
    ((1 - alpha / A, -2 * c, 1 + alpha / A), (1 + alpha * A, -2 * c, 1 - alpha * A))

/-- Band triples read by `equalizer` (`Effects.py`, lines 217-220): one
triple per `i < len(eq_params) // 3`, read at offsets `3*i`, `3*i + 1`,
`3*i + 2`, all strictly below `3 * (len // 3) ≤ len`, so the `getD`
defaults are never consulted; the one or two trailing values of a list
whose length is not a multiple of three are never read. -/
def eqBands (eq_params : List ℚ) : List (ℚ × ℚ × ℚ) :=
  (List.range (eq_params.length / 3)).map (fun i =>
    (eq_params.getD (i * 3) 0, eq_params.getD (i * 3 + 1) 0, eq_params.getD (i * 3 + 2) 0))

/-- `equalizer` (`Effects.py`, lines 214-252): build the biquad list, then
cascade `lfilter` over a copy of the input.  No exception path exists: the
band loop indexes in range, and a zero `q` or zero `a0` only yields
non-finite samples in the code (warnings, not exceptions). -/
def equalizer (buf : List ℚ) (sr : ℚ) (eq_params : List ℚ) (ops : FloatOps)
    (onFlag : Bool) : List ℚ :=
  if onFlag then
    let biquads := (eqBands eq_params).map (fun band =>
      biquadCoeffs ops sr band.1 band.2.1 band.2.2)
    biquads.foldl (fun acc ba => lfilter3 ba.1 ba.2 acc) buf
  else buf

/-! Helper lemmas about the numpy primitives and the `Except` plumbing. -/

theorem ok_bind {ε α β : Type} (a : α) (f : α → Except ε β) :
    (Except.ok a : Except ε α) >>= f = f a := rfl

theorem error_bind {ε α β : Type} (e : ε) (f : α → Except ε β) :
    (Except.error e : Except ε α) >>= f = .error e := rfl

theorem bindEqOk {ε α β : Type} {x : Except ε α} {f : α → Except ε β} {b : β}
    (h : x >>= f = .ok b) : ∃ a, x = .ok a ∧ f a = .ok b := by
  cases x with
  | error e => exact absurd h (by simp [error_bind])
  | ok a => exact ⟨a, rfl, h⟩

theorem mapErrorEqOk {ε ε' α : Type} {x : Except ε α} {f : ε → ε'} {b : α}
    (h : x.mapError f = .ok b) : x = .ok b := by
  cases x with
  | error e => exact absurd h (by simp [Except.mapError])
  | ok a => simpa [Except.mapError] using h

theorem mapErrorAttachEq {ε α β : Type} {x : Except ε α} {c b : β} {e : ε}
    (h : x.mapError (fun er => (er, c)) = .error (e, b)) : b = c := by
  cases x with
  | error er =>
    simp only [Except.mapError, Except.error.injEq, Prod.mk.injEq] at h
    exact h.2.symm
  | ok a => exact absurd h (by simp [Except.mapError])

theorem mapEqOk {ε α β : Type} {x : Except ε α} {f : α → β} {b : β}
    (h : x.map f = .ok b) : ∃ a, x = .ok a ∧ f a = b := by
  cases x with
  | error e => exact absurd h (by simp [Except.map])
  | ok a => exact ⟨a, rfl, by simpa [Except.map] using h⟩

theorem linspaceList_length (start stop : ℚ) (num : ℕ) (endpoint : Bool) :
    (linspaceList start stop num endpoint).length = num := by
  unfold linspaceList
  split
  · split
    · simp_all
    · split
      · simp_all
      · rw [List.length_map, List.length_range]
  · rw [List.length_map, List.length_range]

theorem npLinspace_nonneg {num : ℤ} (start stop : ℚ) (endpoint : Bool) (h : 0 ≤ num) :
    npLinspace start stop num endpoint = .ok (linspaceList start stop num.toNat endpoint) := by
  unfold npLinspace
  rw [if_neg (not_lt.mpr h)]

theorem pyResolve_le (n : ℕ) (i : ℤ) : pyResolve n i ≤ n := by
  unfold pyResolve
  split
  · split <;> omega
  · omega

theorem sliceLen_le (n : ℕ) (lo hi : ℤ) :
    pyResolve n lo + sliceLen n lo hi ≤ n := by
  have hs := pyResolve_le n lo
  have he := pyResolve_le n hi
  unfold sliceLen
  omega

theorem spliceList_length {xs seg : List ℚ} {lo hi : ℤ}
    (h : seg.length = sliceLen xs.length lo hi) :
    (spliceList xs lo hi seg).length = xs.length := by
  have hb := sliceLen_le xs.length lo hi
  have hs := pyResolve_le xs.length lo
  unfold spliceList
  simp only [List.length_append, List.length_take, List.length_drop]
  omega

theorem npSetSlice_length {xs vals ys : List ℚ} {lo hi : ℤ}
    (h : npSetSlice xs lo hi vals = .ok ys) : ys.length = xs.length := by
  unfold npSetSlice at h
  split at h
  · injection h with h
    subst h
    exact spliceList_length (by assumption)
  · split at h
    · injection h with h
      subst h
      exact spliceList_length (List.length_replicate _ _)
    · cases h

theorem npFillSlice_length (xs : List ℚ) (lo hi : ℤ) (v : ℚ) :
    (npFillSlice xs lo hi v).length = xs.length := by
  unfold npFillSlice
  exact spliceList_length (List.length_replicate _ _)

theorem zipMul_length (xs ys : List ℚ) :
    (zipMul xs ys).length = min xs.length ys.length := by
  simp [zipMul]

theorem biquadRun_length (b0 b1 b2 a0 a1 a2 : ℚ) :
    ∀ (xs : List ℚ) (x1 x2 y1 y2 : ℚ),
      (biquadRun b0 b1 b2 a0 a1 a2 xs x1 x2 y1 y2).length = xs.length := by
  intro xs
  induction xs with
  | nil => intro x1 x2 y1 y2; rfl
  | cons x tl ih => intro x1 x2 y1 y2; simp [biquadRun, ih]

theorem lfilter3_length (b a : ℚ × ℚ × ℚ) (xs : List ℚ) :
    (lfilter3 b a xs).length = xs.length :=
  biquadRun_length _ _ _ _ _ _ xs _ _ _ _

theorem foldl_lfilter3_length (l : List ((ℚ × ℚ × ℚ) × (ℚ × ℚ × ℚ))) :
    ∀ acc : List ℚ,
      (l.foldl (fun acc ba => lfilter3 ba.1 ba.2 acc) acc).length = acc.length := by
  induction l with
  | nil => intro acc; rfl
  | cons hd tl ih => intro acc; rw [List.foldl_cons, ih]; exact lfilter3_length _ _ _

theorem biquadRun_id {b0 : ℚ} (hb0 : b0 ≠ 0) (b1 b2 : ℚ) :
    ∀ (xs : List ℚ) (x1 x2 : ℚ),
      biquadRun b0 b1 b2 b0 b1 b2 xs x1 x2 x1 x2 = xs := by
  intro xs
  induction xs with
  | nil => intro x1 x2; rfl
  | cons x tl ih =>
    intro x1 x2
    have hy : (b0 * x + b1 * x1 + b2 * x2 - b1 * x1 - b2 * x2) / b0 = x := by
      have hnum : b0 * x + b1 * x1 + b2 * x2 - b1 * x1 - b2 * x2 = b0 * x := by ring
      rw [hnum, mul_div_cancel_left₀ x hb0]
    simp only [biquadRun, hy]
    exact congrArg (x :: ·) (ih x x1)

theorem le_foldlMaxAbs (xs : List ℚ) :
    ∀ a : ℚ, a ≤ xs.foldl (fun m x => max m |x|) a := by
  induction xs with
  | nil => intro a; exact le_refl a
  | cons x tl ih => intro a; exact le_trans (le_max_left a |x|) (ih (max a |x|))

theorem mem_le_foldlMaxAbs (xs : List ℚ) :
    ∀ (a x : ℚ), x ∈ xs → |x| ≤ xs.foldl (fun m y => max m |y|) a := by
  induction xs with
  | nil => intro a x hx; cases hx
  | cons hd tl ih =>
    intro a x hx
    rcases List.mem_cons.mp hx with h | h
    · subst h
      exact le_trans (le_max_right a |x|) (le_foldlMaxAbs tl _)
    · exact ih (max a |hd|) x h

theorem mem_le_listMaxAbs {xs : List ℚ} {x : ℚ} (hx : x ∈ xs) :
    |x| ≤ listMaxAbs xs :=
  mem_le_foldlMaxAbs xs 0 x hx

theorem listMaxAbs_zero_all_zero {xs : List ℚ} (h : listMaxAbs xs = 0) :
    ∀ x ∈ xs, x = 0 := by
  intro x hx
  have hle := mem_le_listMaxAbs hx
  rw [h] at hle
  exact abs_nonpos_iff.mp hle

theorem adsrCore_length {buf : List ℚ} {len sr attack decay sustain release : ℚ}
    {out : List ℚ} (h : adsrCore buf len sr attack decay sustain release = .ok out) :
    out.length = buf.length := by
  unfold adsrCore at h
  obtain ⟨av, h1, h⟩ := bindEqOk h
  obtain ⟨env1, h2, h⟩ := bindEqOk h
  obtain ⟨dv, h3, h⟩ := bindEqOk h
  obtain ⟨env2, h4, h⟩ := bindEqOk h
  obtain ⟨rv, h5, h⟩ := bindEqOk h
  obtain ⟨env3, h6, h⟩ := bindEqOk h
  injection h with h
  subst h
  have l1 : env1.length = buf.length := by
    have := npSetSlice_length h2
    simpa using this
  have l2 : env2.length = buf.length := by
    have := npSetSlice_length h4
    omega
  have l3 : env3.length = buf.length := by
    have := npSetSlice_length h6
    rw [npFillSlice_length] at this
    omega
  rw [zipMul_length, l3, Nat.min_self]

theorem filterEnvCore_length {ops : FloatOps} {buf : List ℚ}
    {freq_cutoff freq_start freq_end sr : ℚ} {out : List ℚ}
    (h : filterEnvCore ops buf freq_cutoff freq_start freq_end sr = .ok out) :
    out.length = buf.length := by
  unfold filterEnvCore at h
  obtain ⟨ba, h1, h⟩ := bindEqOk h
  dsimp only at h
  split at h
  · cases h
  · injection h with h
    subst h
    rw [zipMul_length, List.length_map, lfilter3_length, linspaceList_length,
      Nat.min_self]

theorem reverbGo_ok_length {decay : ℚ} {ds : ℤ} :
    ∀ (fuel i : ℕ) (buffer buf bb aa : List ℚ),
      reverbGo decay ds fuel i buffer buf = .ok (bb, aa) → aa.length = buf.length := by
  intro fuel
  induction fuel with
  | zero =>
    intro i buffer buf bb aa h
    injection h with h
    injection h with hb ha
    rw [← ha]
  | succ n ih =>
    intro i buffer buf bb aa h
    unfold reverbGo at h
    dsimp only at h
    split at h
    · cases h
    · split at h
      · cases h
      · split at h
        · cases h
        · split at h
          · cases h
          · split at h
            · cases h
            · have := ih (i + 1) _ _ _ _ h
              rw [this, List.length_set]

theorem reverbFinal_ok_length {buf : List ℚ} {sr delay decay : ℚ} {onFlag : Bool}
    {bb aa : List ℚ} (h : reverbFinal buf sr delay decay onFlag = .ok (bb, aa)) :
    aa.length = buf.length := by
  unfold reverbFinal at h
  split at h
  · dsimp only at h
    split at h
    · cases h
    · exact reverbGo_ok_length _ _ _ _ _ _ h
  · injection h with h
    injection h with hb ha
    rw [← ha]

theorem oscillator_ok (ops : FloatOps) (rand : ℕ → ℚ) (freq len sr fm_index fm_freq : ℚ)
    (osc_type : String) (hn : 0 ≤ pyInt (len * sr)) (hmem : osc_type ∈ oscillator_types) :
    ∃ buf, oscillator ops rand freq len sr osc_type fm_index fm_freq = .ok buf ∧
      buf.length = (pyInt (len * sr)).toNat := by
  have ht := npLinspace_nonneg 0 len false hn
  simp only [oscillator_types, List.mem_cons, List.not_mem_nil, or_false] at hmem
  rcases hmem with rfl | rfl | rfl | rfl | rfl | rfl | rfl | rfl | rfl | rfl | rfl | rfl |
    rfl | rfl | rfl | rfl | rfl
  · exact ⟨_, by unfold oscillator; rw [ht]; rfl, by simp [linspaceList_length]⟩
  · exact ⟨_, by unfold oscillator; rw [ht]; rfl, by simp [linspaceList_length]⟩
  · exact ⟨_, by unfold oscillator; rw [ht]; rfl, by simp [linspaceList_length]⟩
  · exact ⟨_, by unfold oscillator; rw [ht]; rfl, by simp [linspaceList_length]⟩
  · exact ⟨_, by unfold oscillator pwm_wave; rw [ht]; rfl, by simp [linspaceList_length]⟩
  · exact ⟨_, by unfold oscillator white_noise; rw [ht, if_neg (not_lt.mpr hn)]; rfl, by simp⟩
  · exact ⟨_, by unfold oscillator; rw [ht]; rfl, by simp [linspaceList_length]⟩
  · exact ⟨_, by unfold oscillator; rw [ht]; rfl, by simp [linspaceList_length]⟩
  · exact ⟨_, by unfold oscillator; rw [ht]; rfl, by simp [linspaceList_length]⟩
  · exact ⟨_, by unfold oscillator; rw [ht]; rfl, by simp [linspaceList_length]⟩
  · exact ⟨_, by unfold oscillator; rw [ht]; rfl, by simp [linspaceList_length]⟩
  · exact ⟨_, by unfold oscillator; rw [ht]; rfl, by simp [linspaceList_length]⟩
  · exact ⟨_, by unfold oscillator; rw [ht]; rfl, by simp [linspaceList_length]⟩
  · exact ⟨_, by unfold oscillator; rw [ht]; rfl, by simp [linspaceList_length]⟩
  · exact ⟨_, by unfold oscillator; rw [ht]; rfl, by simp [linspaceList_length]⟩
  · exact ⟨_, by unfold oscillator; rw [ht]; rfl, by simp [linspaceList_length]⟩
  · exact ⟨_, by unfold oscillator; rw [ht]; rfl, by simp [linspaceList_length]⟩

/-! Closed arithmetic facts used by the concrete evaluations below. -/

theorem floorQ14 : (⌊(1/4 : ℚ)⌋ : ℤ) = 0 := by
  rw [Int.floor_eq_iff]
  norm_num

theorem floorQ12 : (⌊(1/2 : ℚ)⌋ : ℤ) = 0 := by
  rw [Int.floor_eq_iff]
  norm_num

theorem floorQ34 : (⌊(3/4 : ℚ)⌋ : ℤ) = 0 := by
  rw [Int.floor_eq_iff]
  norm_num

theorem fracPartQ34 : fracPart (3/4 : ℚ) = 3/4 := by
  unfold fracPart
  rw [floorQ34]
  norm_num

theorem fracPartQ14 : fracPart (1/4 : ℚ) = 1/4 := by
  unfold fracPart
  rw [floorQ14]
  norm_num

theorem rangeOne : List.range 1 = [0] := by decide

theorem pyIntNeg2 : pyInt (-2 : ℚ) = -2 := by
  norm_num [pyInt]

theorem pyIntQ14x4 : pyInt ((1 : ℚ)/4 * 4) = 1 := by
  norm_num [pyInt]

/-- C1: the claim states that for RMS above the threshold and `on=True`,
`compressor` returns `audio * (1 - env * gain_reduction)` rather than
failing.  The code cannot: line 173 passes six positional arguments to
`adsr_envelope`, which requires eight, so Python raises `TypeError` during
argument binding.  This theorem evaluates the embedded code at a failing
input: the RMS of `[1,1,1,1]` is `1 > 1/2`, and the stage raises instead
of compressing (the caller-visible buffer stays unchanged). -/
theorem c1_compressor_typeerror :
    compressor [1, 1, 1, 1] (1/2) 2 (1/100) (1/100) true =
      .error (.typeError, [1, 1, 1, 1]) := by
  norm_num [compressor, rmsExceeds, sumSq]

/-- C2: the claim (and the spec testable property) states that the ADSR
with `attack=decay=release=0, sustain=1, on=True` is the identity on a
nonempty buffer.  In the code, `release_samples = 0` makes the release
assignment target `envelope[-0:]`, which is the whole array, and numpy
cannot broadcast the empty `linspace(1, 0, 0)` into it: the call raises
`ValueError` instead of returning the buffer.  This theorem evaluates the
embedded code at the failing input `[1]`. -/
theorem c2_adsr_identity_valueerror :
    adsr_envelope [1] 1 1 0 0 1 0 true = .error (.valueError, [1]) := by
  norm_num [adsr_envelope, adsrCore, rndHE, floorQ14, npLinspace, linspaceList, npSetSlice,
    npFillSlice, spliceList, sliceLen, pyResolve, zipMul, Except.mapError, Except.bind,
    Except.map, bind, Functor.map, pure, Except.pure]

/-- C6: every stage, on every argument list for which it returns normally,
returns a buffer of the same length as its input buffer.  Stages that can
raise are quantified over their successful results; `distortion` and
`equalizer` have no exception path and are stated directly. -/
theorem c6_stage_length_preservation :
    (∀ (buf : List ℚ) (len sr attack decay sustain release : ℚ) (onFlag : Bool)
        (out : List ℚ),
      adsr_envelope buf len sr attack decay sustain release onFlag = .ok out →
        out.length = buf.length) ∧
    (∀ (ops : FloatOps) (buf : List ℚ) (len sr fc fs fe : ℚ) (onFlag : Bool)
        (out : List ℚ),
      filter_envelope buf len sr fc fs fe ops onFlag = .ok out →
        out.length = buf.length) ∧
    (∀ (ops : FloatOps) (buf : List ℚ) (cutoff resonance sr : ℚ) (onFlag : Bool)
        (out : List ℚ),
      lowpass_filter buf cutoff resonance sr ops onFlag = .ok out →
        out.length = buf.length) ∧
    (∀ (ops : FloatOps) (buf : List ℚ) (cutoff resonance sr : ℚ) (onFlag : Bool)
        (out : List ℚ),
      highpass_filter buf cutoff resonance sr ops onFlag = .ok out →
        out.length = buf.length) ∧
    (∀ (buf : List ℚ) (threshold r attack release : ℚ) (onFlag : Bool) (out : List ℚ),
      compressor buf threshold r attack release onFlag = .ok out →
        out.length = buf.length) ∧
    (∀ (buf : List ℚ) (sr delay decay : ℚ) (onFlag : Bool) (out : List ℚ),
      reverb buf sr delay decay onFlag = .ok out → out.length = buf.length) ∧
    (∀ (ops : FloatOps) (buf : List ℚ) (threshold : ℚ) (onFlag : Bool),
      (distortion buf threshold ops onFlag).length = buf.length) ∧
    (∀ (ops : FloatOps) (buf : List ℚ) (sr : ℚ) (eq_params : List ℚ) (onFlag : Bool),
      (equalizer buf sr eq_params ops onFlag).length = buf.length) := by
  refine ⟨?_, ?_, ?_, ?_, ?_, ?_, ?_, ?_⟩
  · intro buf len sr attack decay sustain release onFlag out h
    unfold adsr_envelope at h
    split at h
    · exact adsrCore_length (mapErrorEqOk h)
    · injection h with h
      rw [← h]
  · intro ops buf len sr fc fs fe onFlag out h
    unfold filter_envelope at h
    split at h
    · exact filterEnvCore_length (mapErrorEqOk h)
    · injection h with h
      rw [← h]
  · intro ops buf cutoff resonance sr onFlag out h
    unfold lowpass_filter at h
    split at h
    · obtain ⟨ba, h1, h⟩ := bindEqOk (mapErrorEqOk h)
      injection h with h
      rw [← h, List.length_map, lfilter3_length]
    · injection h with h
      rw [← h]
  · intro ops buf cutoff resonance sr onFlag out h
    unfold highpass_filter at h
    split at h
    · obtain ⟨ba, h1, h⟩ := bindEqOk (mapErrorEqOk h)
      injection h with h
      rw [← h, List.length_map, lfilter3_length]
    · injection h with h
      rw [← h]
  · intro buf threshold r attack release onFlag out h
    unfold compressor at h
    split at h
    · split at h
      · cases h
      · injection h with h
        rw [← h]
    · injection h with h
      rw [← h]
  · intro buf sr delay decay onFlag out h
    unfold reverb at h
    obtain ⟨⟨bb, aa⟩, hfin, hsnd⟩ := mapEqOk h
    rw [← hsnd]
    exact reverbFinal_ok_length hfin
  · intro ops buf threshold onFlag
    unfold distortion
    split
    · rw [List.length_map]
    · rfl
  · intro ops buf sr eq_params onFlag
    unfold equalizer
    split
    · exact foldl_lfilter3_length _ _
    · rfl

/-- C6 witness: concrete successful runs of three stages — an ADSR pass
over four samples, a reverb pass over four samples, and an equalizer band
over two samples — whose outputs have the length of their inputs. -/
theorem c6_witness :
    (([1, 2] : List ℚ).length = ([1, 2] : List ℚ).length) ∧
    (([1, 1/2, 0, 0] : List ℚ).length = ([1, 0, 0, 0] : List ℚ).length) ∧
    ((equalizer [5, 7] 4 [1, 0, 1] opsQ true).length = ([5, 7] : List ℚ).length) := by
  refine ⟨?_, ?_, ?_⟩
  · refine c6_stage_length_preservation.1 [1, 2] 2 1 0 0 1 1 true [1, 2] ?_
    norm_num [adsr_envelope, adsrCore, rndHE, floorQ12, npLinspace, linspaceList, npSetSlice,
      npFillSlice, spliceList, sliceLen, pyResolve, zipMul, Except.mapError, Except.bind,
      Except.map, bind, Functor.map, pure, Except.pure]
    try simp
    try norm_num
  · refine c6_stage_length_preservation.2.2.2.2.2.1 [1, 0, 0, 0] 4 (1/4) (1/2) true
      [1, 1/2, 0, 0] ?_
    simp only [reverb, reverbFinal, pyIntQ14x4, List.length_cons, List.length_nil]
    norm_num [reverbGo, npGet, npSet, npIdx, List.replicate, Except.map]
    try simp
    try norm_num
  · exact c6_stage_length_preservation.2.2.2.2.2.2.2 opsQ [5, 7] 4 [1, 0, 1] true

/-- C3 counterexample: the claim says `normalize_audio` fails with
`SilentBufferError` exactly when the peak absolute value is `0`.  On the
all-zero buffer `[0]` the peak is `0`, yet the call succeeds: numpy only
warns about the `0/0` divisions and returns a buffer of NaNs (modelled as
`none`); no exception of any kind is raised. -/
theorem c3_counterexample :
    listMaxAbs [(0 : ℚ)] = 0 ∧ normalize_audio [0] = .ok [none] := by
  constructor
  · norm_num [listMaxAbs, max_def]
  · norm_num [normalize_audio, pyDiv, listMaxAbs, max_def]

/-- C3 amended: `normalize_audio` never signals an error on a nonempty
buffer.  With a nonzero peak it returns the buffer divided by the peak;
with a zero peak it returns one non-finite value (NaN, modelled `none`)
per sample.  Only the empty buffer raises (`np.max` of an empty array,
a `ValueError`, not a `SilentBufferError`). -/
theorem c3_amended (buf : List ℚ) (hne : buf ≠ []) :
    (listMaxAbs buf ≠ 0 →
      normalize_audio buf = .ok (buf.map (fun x => some (x / listMaxAbs buf)))) ∧
    (listMaxAbs buf = 0 →
      normalize_audio buf = .ok (List.replicate buf.length none)) := by
  have hcond : ¬(buf.isEmpty = true) := by
    cases buf
    · exact absurd rfl hne
    · simp
  constructor
  · intro hmax
    unfold normalize_audio
    rw [if_neg hcond]
    simp [pyDiv, hmax]
  · intro hmax
    unfold normalize_audio
    rw [if_neg hcond, hmax]
    simp [pyDiv]

/-- C3 witness: a nonzero-peak buffer is divided by its peak, and an
all-zero two-sample buffer comes back as two NaNs, both via the amended
theorem. -/
theorem c3_amended_witness :
    normalize_audio [2, -4] =
      .ok (([2, -4] : List ℚ).map (fun x => some (x / listMaxAbs [2, -4]))) ∧
    normalize_audio [0, 0] = .ok (List.replicate 2 none) := by
  constructor
  · exact (c3_amended [2, -4] (by decide)).1 (by norm_num [listMaxAbs, max_def])
  · exact (c3_amended [0, 0] (by decide)).2 (by norm_num [listMaxAbs, max_def])

/-- C4 counterexample: the claim says `oscillator` signals
`InvalidParameter` whenever `sample_rate` is not strictly positive.  With
`sr = 0` (and type `sine`) the code performs no such check: the time axis
has `int(1 * 0) = 0` samples and the call succeeds with an empty buffer
instead of raising. -/
theorem c4_counterexample :
    oscillator opsQ randZero 1 1 0 "sine" 0 0 = .ok [] := by
  norm_num [oscillator, pyInt, npLinspace, linspaceList]

/-- C4 amended: `oscillator` raises `ValueError` for every unrecognized
type string (either from the dispatch chain or, for a negative
`int(length*sr)`, already from `np.linspace`); it validates no numeric
parameter: every recognized type with `length * sr ≥ 0` succeeds, however
degenerate the parameters (zero or non-positive sample rate or duration
included). -/
theorem c4_amended (ops : FloatOps) (rand : ℕ → ℚ) (freq len sr fm_index fm_freq : ℚ)
    (osc_type : String) :
    (osc_type ∉ oscillator_types →
      oscillator ops rand freq len sr osc_type fm_index fm_freq = .error .valueError) ∧
    (0 ≤ len * sr → osc_type ∈ oscillator_types →
      ∃ buf, oscillator ops rand freq len sr osc_type fm_index fm_freq = .ok buf) := by
  constructor
  · intro hnm
    by_cases hneg : pyInt (len * sr) < 0
    · have ht : npLinspace 0 len (pyInt (len * sr)) false = .error .valueError := by
        unfold npLinspace
        rw [if_pos hneg]
      unfold oscillator
      rw [ht]
      rfl
    · have ht := npLinspace_nonneg 0 len false (le_of_not_lt hneg)
      simp only [oscillator_types, List.mem_cons, List.not_mem_nil, or_false, not_or] at hnm
      obtain ⟨h1, h2, h3, h4, h5, h6, h7, h8, h9, h10, h11, h12, h13, h14, h15, h16, h17⟩ := hnm
      unfold oscillator
      rw [ht]
      simp only [ok_bind]
      rw [if_neg h1, if_neg h2, if_neg h3, if_neg h4, if_neg h5, if_neg h6, if_neg h7,
        if_neg h8, if_neg h9, if_neg h10, if_neg h11, if_neg h12, if_neg h13, if_neg h14,
        if_neg h15, if_neg h16, if_neg h17]
  · intro hq hmem
    have hn : 0 ≤ pyInt (len * sr) := by
      unfold pyInt
      rw [if_neg (not_lt.mpr hq)]
      exact Int.floor_nonneg.mpr hq
    obtain ⟨b, hb, -⟩ := oscillator_ok ops rand freq len sr fm_index fm_freq osc_type hn hmem
    exact ⟨b, hb⟩

/-- C4 witness: an unrecognized type string raises `ValueError`, and a
recognized type succeeds even with a zero sample rate. -/
theorem c4_amended_witness :
    oscillator opsQ randZero 440 1 0 "blorp" 0 0 = .error .valueError ∧
    ∃ buf, oscillator opsQ randZero 440 1 2 "sine" 0 0 = .ok buf := by
  constructor
  · exact (c4_amended opsQ randZero 440 1 0 0 0 "blorp").1 (by decide)
  · exact (c4_amended opsQ randZero 440 1 2 0 0 "sine").2 (by norm_num) (by decide)

/-- C5 counterexample: the claim says a failing stage leaves the
caller-visible buffer unchanged.  `reverb` with a negative delay
(`delay_samples = -2`) builds a delay line two samples shorter than the
input; the loop wraps the negative write index, reads real feedback, and
rewrites `audio[6]` and `audio[7]` in place before `buffer[8]` raises
`IndexError` — the caller is left holding a partially processed buffer. -/
theorem c5_counterexample :
    reverb (List.replicate 10 1) 1 (-2) 1 true =
      .error (.indexError, [1, 1, 1, 1, 1, 1, 2, 2, 1, 1]) ∧
    ([1, 1, 1, 1, 1, 1, 2, 2, 1, 1] : List ℚ) ≠ List.replicate 10 1 := by
  constructor
  · simp only [reverb, reverbFinal, mul_one, pyIntNeg2, List.length_replicate]
    norm_num [reverbGo, npGet, npSet, npIdx, List.replicate, Except.map]
    try simp
    try norm_num
  · norm_num [List.replicate]

/-- C5 amended: the stages that never write into the caller-held array —
`adsr_envelope`, `filter_envelope`, `lowpass_filter`, `highpass_filter`
and `compressor` — leave the caller-visible buffer equal to the input
whenever they signal an error; `reverb`, which mutates the array in place,
does not (see the counterexample). -/
theorem c5_amended :
    (∀ (buf : List ℚ) (len sr attack decay sustain release : ℚ) (onFlag : Bool)
        (e : PyErr) (b : List ℚ),
      adsr_envelope buf len sr attack decay sustain release onFlag = .error (e, b) →
        b = buf) ∧
    (∀ (ops : FloatOps) (buf : List ℚ) (len sr fc fs fe : ℚ) (onFlag : Bool)
        (e : PyErr) (b : List ℚ),
      filter_envelope buf len sr fc fs fe ops onFlag = .error (e, b) → b = buf) ∧
    (∀ (ops : FloatOps) (buf : List ℚ) (cutoff resonance sr : ℚ) (onFlag : Bool)
        (e : PyErr) (b : List ℚ),
      lowpass_filter buf cutoff resonance sr ops onFlag = .error (e, b) → b = buf) ∧
    (∀ (ops : FloatOps) (buf : List ℚ) (cutoff resonance sr : ℚ) (onFlag : Bool)
        (e : PyErr) (b : List ℚ),
      highpass_filter buf cutoff resonance sr ops onFlag = .error (e, b) → b = buf) ∧
    (∀ (buf : List ℚ) (threshold r attack release : ℚ) (onFlag : Bool)
        (e : PyErr) (b : List ℚ),
      compressor buf threshold r attack release onFlag = .error (e, b) → b = buf) := by
  refine ⟨?_, ?_, ?_, ?_, ?_⟩
  · intro buf len sr attack decay sustain release onFlag e b h
    unfold adsr_envelope at h
    split at h
    · exact mapErrorAttachEq h
    · cases h
  · intro ops buf len sr fc fs fe onFlag e b h
    unfold filter_envelope at h
    split at h
    · exact mapErrorAttachEq h
    · cases h
  · intro ops buf cutoff resonance sr onFlag e b h
    unfold lowpass_filter at h
    split at h
    · exact mapErrorAttachEq h
    · cases h
  · intro ops buf cutoff resonance sr onFlag e b h
    unfold highpass_filter at h
    split at h
    · exact mapErrorAttachEq h
    · cases h
  · intro buf threshold r attack release onFlag e b h
    unfold compressor at h
    split at h
    · split at h
      · injection h with h
        injection h with h1 h2
        exact h2.symm
      · cases h
    · cases h

/-- C5 witness for the amended theorem: a compressor run that raises
`TypeError` (RMS `1` above threshold `1/2`) hands back exactly the input
buffer. -/
theorem c5_amended_witness : ([1, 1] : List ℚ) = [1, 1] :=
  c5_amended.2.2.2.2 [1, 1] (1/2) 2 0 0 true .typeError [1, 1]
    (by norm_num [compressor, rmsExceeds, sumSq])

/-- C7: `reverb` returns the very array it mutated in place, so on success
the caller-visible contents after the call coincide with the returned
buffer (the shallow embedding states object aliasing as equality between
the returned value and the after-call contents of the argument array). -/
theorem c7_reverb_inplace (buf : List ℚ) (sr delay decay : ℚ) (out : List ℚ)
    (h : reverb buf sr delay decay true = .ok out) :
    reverbCallerAfter buf sr delay decay true = out := by
  unfold reverb at h
  unfold reverbCallerAfter
  obtain ⟨p, hp, hsnd⟩ := mapEqOk h
  rw [hp]
  exact hsnd

/-- C7 witness: a four-sample reverb pass (delay one sample, decay `1/2`)
returns `[1, 1/2, 0, 0]`, and the caller-held array holds exactly that
after the call. -/
theorem c7_witness :
    reverbCallerAfter [1, 0, 0, 0] 4 (1/4) (1/2) true = [1, 1/2, 0, 0] := by
  refine c7_reverb_inplace [1, 0, 0, 0] 4 (1/4) (1/2) [1, 1/2, 0, 0] ?_
  simp only [reverb, reverbFinal, pyIntQ14x4, List.length_cons, List.length_nil]
  norm_num [reverbGo, npGet, npSet, npIdx, List.replicate, Except.map]
  try simp
  try norm_num

/-- C8 counterexample: the claim quantifies over every center frequency
and every positive `Q`.  At `center = 3`, `sr = 4`, `Q = 1/2` the angle is
`w0 = 3*pi/2`, where `sin(w0) = -1` exactly (also in IEEE doubles), so
`alpha = -1` and the common coefficient `a0 = b0 = 1 + alpha` is `0`: the
filter normalization divides by zero and the output is not the input (the
code produces non-finite samples; the model yields the junk value `0` —
under both readings the buffer is not returned unchanged). -/
theorem c8_counterexample :
    equalizer [1, 0, 0, 0] 4 [3, 0, 1/2] opsQ true ≠ [1, 0, 0, 0] := by
  have hb : eqBands [3, 0, 1/2] = [(3, 0, 1/2)] := by
    norm_num [eqBands, rangeOne]
  have hc : biquadCoeffs opsQ 4 3 0 (1/2) = ((0, 0, 2), (0, 0, 2)) := by
    norm_num [biquadCoeffs, opsQ, fracPartQ34]
  have hlf : lfilter3 ((0:ℚ), (0:ℚ), (2:ℚ)) ((0:ℚ), (0:ℚ), (2:ℚ)) [1, 0, 0, 0] =
      [0, 0, 0, 0] := by
    norm_num [lfilter3, biquadRun]
  norm_num [equalizer, hb, hc, hlf]

/-- C8 amended: a single band at `0` dB is the exact identity provided the
common biquad coefficient `a0 = b0 = 1 + sin(w0)/(2*Q)` is nonzero (at
gain `0` the boost branch gives `A = 1`, so the feedforward and feedback
triples coincide and the cascade reduces to multiplying by `b0/a0`); when
`sin(w0) = -2*Q` the coefficients degenerate and the identity fails. -/
theorem c8_amended (ops : FloatOps) (buf : List ℚ) (sr f q : ℚ)
    (hA : ops.exp10 0 = 1)
    (ha0 : 1 + ops.sin2pi (f / sr) / (2 * q) ≠ 0) :
    equalizer buf sr [f, 0, q] ops true = buf := by
  have hb : eqBands [f, 0, q] = [(f, 0, q)] := by
    simp [eqBands, rangeOne]
  have hc : biquadCoeffs ops sr f 0 q =
      ((1 + ops.sin2pi (f / sr) / (2 * q), -2 * ops.cos2pi (f / sr),
        1 - ops.sin2pi (f / sr) / (2 * q)),
       (1 + ops.sin2pi (f / sr) / (2 * q), -2 * ops.cos2pi (f / sr),
        1 - ops.sin2pi (f / sr) / (2 * q))) := by
    unfold biquadCoeffs
    norm_num [hA]
  unfold equalizer
  rw [if_pos rfl, hb]
  simp only [List.map_cons, List.map_nil, List.foldl_cons, List.foldl_nil, hc]
  exact biquadRun_id ha0 _ _ buf 0 0

/-- C8 witness: the band `(1 Hz, 0 dB, Q = 1)` at `sr = 4` has
`sin(w0) = sin(pi/2) = 1`, hence `a0 = 3/2 ≠ 0`, and the equalizer returns
the two-sample buffer unchanged. -/
theorem c8_amended_witness : equalizer [5, 7] 4 [1, 0, 1] opsQ true = [5, 7] :=
  c8_amended opsQ [5, 7] 4 1 1 (by norm_num [opsQ]) (by norm_num [opsQ, fracPartQ14])

/-- C9: every recognized oscillator type with positive duration and sample
rate returns a buffer of exactly `floor(duration * sample_rate)` samples —
including the `pwm` and `noise` variants, which delegate to `pwm_wave` and
`white_noise` and rebuild the same sample count. -/
theorem c9_osc_length (ops : FloatOps) (rand : ℕ → ℚ) (freq len sr fm_index fm_freq : ℚ)
    (osc_type : String) (hmem : osc_type ∈ oscillator_types)
    (hlen : 0 < len) (hsr : 0 < sr) :
    ∃ buf, oscillator ops rand freq len sr osc_type fm_index fm_freq = .ok buf ∧
      buf.length = (Int.floor (len * sr)).toNat := by
  have hq : (0 : ℚ) ≤ len * sr := le_of_lt (mul_pos hlen hsr)
  have hfl : pyInt (len * sr) = Int.floor (len * sr) := by
    unfold pyInt
    rw [if_neg (not_lt.mpr hq)]
  have hn : 0 ≤ pyInt (len * sr) := by
    rw [hfl]
    exact Int.floor_nonneg.mpr hq
  have h := oscillator_ok ops rand freq len sr fm_index fm_freq osc_type hn hmem
  rw [hfl] at h
  exact h

/-- C9 witness: a square wave of duration `1` at sample rate `2` has
exactly `floor(1 * 2) = 2` samples. -/
theorem c9_witness :
    ∃ buf, oscillator opsQ randZero 3 1 2 "square" 0 0 = .ok buf ∧
      buf.length = (Int.floor ((1 : ℚ) * 2)).toNat :=
  c9_osc_length opsQ randZero 3 1 2 0 0 "square" (by decide) (by norm_num) (by norm_num)

/-- C10: trailing values of an `eq_params` list whose length is not a
multiple of three are ignored: appending one or two extra values to a
well-formed parameter list changes neither the (always successful) output
nor the band count, which is `len // 3`. -/
theorem c10_eq_params_remainder (ops : FloatOps) (buf : List ℚ) (sr : ℚ)
    (ps extra : List ℚ) (hmul : ps.length % 3 = 0) (hlt : extra.length < 3) :
    equalizer buf sr (ps ++ extra) ops true = equalizer buf sr ps ops true ∧
    (eqBands (ps ++ extra)).length = ps.length / 3 := by
  have hlen : (ps ++ extra).length / 3 = ps.length / 3 := by
    rw [List.length_append]
    omega
  have hbands : eqBands (ps ++ extra) = eqBands ps := by
    unfold eqBands
    rw [hlen]
    apply List.map_congr_left
    intro i hi
    have hi3 : i < ps.length / 3 := List.mem_range.mp hi
    have h0 : i * 3 < ps.length := by omega
    have h1 : i * 3 + 1 < ps.length := by omega
    have h2 : i * 3 + 2 < ps.length := by omega
    rw [List.getD_append _ _ _ _ h0, List.getD_append _ _ _ _ h1,
      List.getD_append _ _ _ _ h2]
  constructor
  · unfold equalizer
    rw [hbands]
  · unfold eqBands
    rw [List.length_map, List.length_range, hlen]

/-- C10 witness: two leftover values after one complete `(freq, gain, Q)`
triple change nothing, and exactly one band is read. -/
theorem c10_witness :
    equalizer [1, 2] 4 ([1, 0, 1] ++ [9, 9]) opsQ true =
      equalizer [1, 2] 4 [1, 0, 1] opsQ true ∧
    (eqBands ([1, 0, 1] ++ [9, 9])).length = ([1, 0, 1] : List ℚ).length / 3 :=
  c10_eq_params_remainder opsQ [1, 2] 4 [1, 0, 1] [9, 9] (by decide) (by decide)
